import Mathlib

/-!
Verification of the content of `docs/12.6.1/searchindex.js`: a Sphinx-generated
full-text search index, shipped as a single JavaScript line holding one
Search.setIndex call whose argument is a JSON object, together with the
release-notes markdown fragment for the cuda.core 12.6.1 release.

The JSON object is embedded shallowly as a term of an inductive type `Jv` of
JSON values (the payload uses only objects, arrays, strings, non-negative
integers and null), transliterated member by member from the source in source
order. The raw character data of the file is also embedded as string literals,
and a JSON parser for the sublanguage actually used links the two: parsing the
raw argument text yields exactly the embedded object.
-/

/-- JSON values, restricted to the forms occurring in the search index payload:
null, non-negative integer numerals, strings, arrays and objects.
This is a sublanguage of JSON, so a parse success below implies that a full
JSON parser succeeds as well. -/
inductive Jv where
  | null : Jv
  | num : Nat → Jv
  | str : String → Jv
  | arr : List Jv → Jv
  | obj : List (String × Jv) → Jv

mutual
/-- Structural equality test on `Jv` (the derive handler does not support this
nested inductive, so it is written out). -/
def jvBeq : Jv → Jv → Bool
  | .null, .null => true
  | .num a, .num b => decide (a = b)
  | .str a, .str b => decide (a = b)
  | .arr xs, .arr ys => jvListBeq xs ys
  | .obj xs, .obj ys => jvMembersBeq xs ys
  | _, _ => false
/-- Elementwise `jvBeq` on lists of values. -/
def jvListBeq : List Jv → List Jv → Bool
  | [], [] => true
  | x :: xs, y :: ys => jvBeq x y && jvListBeq xs ys
  | _, _ => false
/-- Elementwise key/value `jvBeq` on object member lists. -/
def jvMembersBeq : List (String × Jv) → List (String × Jv) → Bool
  | [], [] => true
  | x :: xs, y :: ys => (decide (x.1 = y.1) && jvBeq x.2 y.2) && jvMembersBeq xs ys
  | _, _ => false
end

/-- Look a key up in an object member list, first match wins (JSON object
field access). -/
def lookupKey : List (String × Jv) → String → Option Jv
  | [], _ => none
  | kv :: kvs, key => if kv.1 = key then some kv.2 else lookupKey kvs key

/-- Field access on a JSON value: `some` value for a key of an object,
`none` on a missing key or a non-object. -/
def Jv.get : Jv → String → Option Jv
  | .obj kvs, key => lookupKey kvs key
  | _, _ => none

/-- Field access with `Jv.null` as the out-of-domain default. -/
def subObj (v : Jv) (k : String) : Jv :=
  (Jv.get v k).getD Jv.null

/-- Is the value an object? -/
def isObj : Jv → Bool
  | .obj _ => true
  | _ => false

/-- Is the value an integer numeral? -/
def isNum : Jv → Bool
  | .num _ => true
  | _ => false

/-- The integer of a numeral value. -/
def asNat : Jv → Option Nat
  | .num n => some n
  | _ => none

/-- All elements of a value list as integers, or `none` if one is not a
numeral. -/
def natsOf : List Jv → Option (List Nat)
  | [] => some []
  | v :: vs =>
    match asNat v, natsOf vs with
    | some n, some ns => some (n :: ns)
    | _, _ => none

/-- Length of an array value (0 on non-arrays). -/
def arrLength : Jv → Nat
  | .arr l => l.length
  | _ => 0

/-- The i-th element of an array value, `Jv.null` out of range. -/
def arrAt (v : Jv) (i : Nat) : Jv :=
  match v with
  | .arr l => l.getD i Jv.null
  | _ => Jv.null

/-- The i-th element of an array value as a string, when it is one. -/
def strAt (v : Jv) (i : Nat) : Option String :=
  match arrAt v i with
  | .str s => some s
  | _ => none

/-- Does every member value of an object satisfy the predicate?
(`false` on non-objects.) -/
def objValuesAll (v : Jv) (p : Jv → Bool) : Bool :=
  match v with
  | .obj kvs => kvs.all fun kv => p kv.2
  | _ => false

/-- Is the list of naturals strictly increasing? -/
def strictIncr : List Nat → Bool
  | [] => true
  | [_] => true
  | a :: b :: rest => Nat.blt a b && strictIncr (b :: rest)

mutual
/-- Does `k` occur as an object key anywhere inside the value (at any depth)? -/
def containsKeyDeep (k : String) : Jv → Bool
  | .obj kvs => containsKeyInMembers k kvs
  | .arr l => containsKeyInList k l
  | _ => false
/-- `containsKeyDeep` over a list of values. -/
def containsKeyInList (k : String) : List Jv → Bool
  | [] => false
  | v :: vs => containsKeyDeep k v || containsKeyInList k vs
/-- `containsKeyDeep` over an object member list, also checking the keys
themselves. -/
def containsKeyInMembers (k : String) : List (String × Jv) → Bool
  | [] => false
  | kv :: kvs => decide (kv.1 = k) || containsKeyDeep k kv.2 || containsKeyInMembers k kvs
end

/-- Is `pat` a prefix of `cs`? (plain character-list comparison). -/
def leadsWithChars : List Char → List Char → Bool
  | [], _ => true
  | _ :: _, [] => false
  | p :: ps, c :: cs => decide (p = c) && leadsWithChars ps cs

/-- Does `pat` occur as a contiguous run inside `cs`? -/
def containsChars (pat : List Char) : List Char → Bool
  | [] => leadsWithChars pat []
  | c :: cs => leadsWithChars pat (c :: cs) || containsChars pat cs

/-- Substring test on strings, via their character lists. -/
def strContains (s pat : String) : Bool :=
  containsChars pat.data s.data

/-! ### A JSON parser for the sublanguage used by the payload

Recursive descent over the character list, with an explicit fuel argument for
termination. It accepts objects, arrays, double-quoted strings without escape
sequences, non-negative integer numerals and `null` — a sublanguage of JSON,
so its success on a text implies that the text is valid JSON. -/

/-- JSON insignificant whitespace. -/
def isWs (c : Char) : Bool :=
  c.toNat = 32 || c.toNat = 10 || c.toNat = 9 || c.toNat = 13

/-- Drop leading whitespace. -/
def skipWs : List Char → List Char
  | [] => []
  | c :: cs => if isWs c then skipWs cs else c :: cs

/-- ASCII decimal digit. -/
def isDigitCh (c : Char) : Bool :=
  Nat.ble 48 c.toNat && Nat.ble c.toNat 57

/-- Read a run of decimal digits, accumulating their value. -/
def readDigits : List Char → Nat → Nat × List Char
  | [], acc => (acc, [])
  | c :: cs, acc =>
    if isDigitCh c then readDigits cs (acc * 10 + (c.toNat - 48)) else (acc, c :: cs)

/-- Read the body of a double-quoted string up to the closing quote.
Escape sequences (backslash) are rejected: none occur in the payload. -/
def readStrChars : List Char → Option (List Char × List Char)
  | [] => none
  | c :: cs =>
    if c.toNat = 34 then some ([], cs)
    else if c.toNat = 92 then none
    else
      match readStrChars cs with
      | some (s, rest) => some (c :: s, rest)
      | none => none

mutual
/-- Parse one JSON value, returning it with the unconsumed input. -/
def parseVal : Nat → List Char → Option (Jv × List Char)
  | 0, _ => none
  | fuel + 1, cs =>
    match skipWs cs with
    | [] => none
    | c :: cs1 =>
      if c.toNat = 34 then
        match readStrChars cs1 with
        | some (s, rest) => some (Jv.str (String.mk s), rest)
        | none => none
      else if c.toNat = 123 then parseObjRest fuel cs1
      else if c.toNat = 91 then parseArrRest fuel cs1
      else if isDigitCh c then
        match readDigits (c :: cs1) 0 with
        | (n, rest) => some (Jv.num n, rest)
      else if c.toNat = 110 then
        match cs1 with
        | u :: l1 :: l2 :: rest =>
          if u.toNat = 117 && l1.toNat = 108 && l2.toNat = 108 then
            some (Jv.null, rest)
          else none
        | _ => none
      else none
/-- Parse the remainder of an array after the opening bracket. -/
def parseArrRest : Nat → List Char → Option (Jv × List Char)
  | 0, _ => none
  | fuel + 1, cs =>
    match skipWs cs with
    | [] => none
    | c :: cs1 =>
      if c.toNat = 93 then some (Jv.arr [], cs1)
      else
        match parseVal fuel (c :: cs1) with
        | some (v, rest) => parseArrMore fuel [v] rest
        | none => none
/-- Parse further array elements: a comma and an element, or the closing
bracket. The accumulator holds the elements parsed so far, reversed. -/
def parseArrMore : Nat → List Jv → List Char → Option (Jv × List Char)
  | 0, _, _ => none
  | fuel + 1, acc, cs =>
    match skipWs cs with
    | [] => none
    | c :: cs1 =>
      if c.toNat = 93 then some (Jv.arr acc.reverse, cs1)
      else if c.toNat = 44 then
        match parseVal fuel cs1 with
        | some (v, rest) => parseArrMore fuel (v :: acc) rest
        | none => none
      else none
/-- Parse one object member: a string key, a colon and a value. -/
def parseMember : Nat → List Char → Option ((String × Jv) × List Char)
  | 0, _ => none
  | fuel + 1, cs =>
    match skipWs cs with
    | [] => none
    | c :: cs1 =>
      if c.toNat = 34 then
        match readStrChars cs1 with
        | some (s, rest) =>
          match skipWs rest with
          | d :: rest2 =>
            if d.toNat = 58 then
              match parseVal fuel rest2 with
              | some (v, rest3) => some ((String.mk s, v), rest3)
              | none => none
            else none
          | [] => none
        | none => none
      else none
/-- Parse the remainder of an object after the opening brace. -/
def parseObjRest : Nat → List Char → Option (Jv × List Char)
  | 0, _ => none
  | fuel + 1, cs =>
    match skipWs cs with
    | [] => none
    | c :: cs1 =>
      if c.toNat = 125 then some (Jv.obj [], cs1)
      else
        match parseMember fuel (c :: cs1) with
        | some (kv, rest) => parseObjMore fuel [kv] rest
        | none => none
/-- Parse further object members: a comma and a member, or the closing brace.
The accumulator holds the members parsed so far, reversed. -/
def parseObjMore : Nat → List (String × Jv) → List Char → Option (Jv × List Char)
  | 0, _, _ => none
  | fuel + 1, acc, cs =>
    match skipWs cs with
    | [] => none
    | c :: cs1 =>
      if c.toNat = 125 then some (Jv.obj acc.reverse, cs1)
      else if c.toNat = 44 then
        match parseMember fuel cs1 with
        | some (kv, rest) => parseObjMore fuel (kv :: acc) rest
        | none => none
      else none
end

/-- Parse a whole text as a single JSON value: one value, then only
whitespace. `some` is a parse success, `none` a parse error. -/
def parseJson (s : String) : Option Jv :=
  match parseVal (2 * s.length + 16) s.data with
  | some (v, rest) => if skipWs rest = [] then some v else none
  | none => none

/-! ### A JSON printer matching the Sphinx output format

The search index is emitted by Sphinx with a fixed concrete format: members
and elements separated by a comma and one space, a colon and one space after
each key, no other whitespace. Rendering the embedded object with these rules
and proving the parser reads the rendering back (theorems below) identifies
the embedded object with the raw character data of the file. -/

/-- The double quote character. -/
def quoteChar : Char := Char.ofNat 34

/-- The comma character. -/
def commaChar : Char := Char.ofNat 44

/-- The colon character. -/
def colonChar : Char := Char.ofNat 58

/-- The space character. -/
def spaceChar : Char := Char.ofNat 32

/-- The opening square bracket. -/
def lbrackChar : Char := Char.ofNat 91

/-- The closing square bracket. -/
def rbrackChar : Char := Char.ofNat 93

/-- The opening curly brace. -/
def lbraceChar : Char := Char.ofNat 123

/-- The closing curly brace. -/
def rbraceChar : Char := Char.ofNat 125

/-- The character of a decimal digit. -/
def digitChar (d : Nat) : Char := Char.ofNat (48 + d)

/-- The decimal digits of a number, least significant first, with an explicit
fuel argument so the recursion is structural; the fuel is sufficient whenever
the number is at most the fuel. -/
def digitsRevF : Nat → Nat → List Nat
  | 0, _ => []
  | fuel + 1, n => if n = 0 then [] else (n % 10) :: digitsRevF fuel (n / 10)

/-- Decimal numeral of a number, most significant digit first. -/
def renderNum (n : Nat) : List Char :=
  if n = 0 then [digitChar 0] else ((digitsRevF n n).reverse).map digitChar

mutual
/-- Print a JSON value in the exact concrete format of the search index file:
comma plus one space between elements and members, colon plus one space after
a key, no other whitespace. -/
def renderChars : Jv → List Char
  | .null => "null".data
  | .num n => renderNum n
  | .str s => quoteChar :: (s.data ++ [quoteChar])
  | .arr [] => [lbrackChar, rbrackChar]
  | .arr (v :: vs) => lbrackChar :: (renderChars v ++ renderSuffix vs)
  | .obj [] => [lbraceChar, rbraceChar]
  | .obj (kv :: kvs) => lbraceChar :: (memberChars kv ++ renderMembersSuffix kvs)
/-- Print the remaining elements of an array, each preceded by a comma and a
space, then the closing bracket. -/
def renderSuffix : List Jv → List Char
  | [] => [rbrackChar]
  | v :: vs => commaChar :: spaceChar :: (renderChars v ++ renderSuffix vs)
/-- Print one object member: quoted key, colon, space, value. -/
def memberChars : String × Jv → List Char
  | (k, v) => quoteChar :: (k.data ++ quoteChar :: colonChar :: spaceChar :: renderChars v)
/-- Print the remaining members of an object, each preceded by a comma and a
space, then the closing brace. -/
def renderMembersSuffix : List (String × Jv) → List Char
  | [] => [rbraceChar]
  | kv :: kvs => commaChar :: spaceChar :: (memberChars kv ++ renderMembersSuffix kvs)
end

/-- A character the renderer and parser round-trip inside a JSON string:
printable ASCII, not the double quote, not the backslash. Every character of
every string and key of the payload is of this form. -/
def charOk (c : Char) : Bool :=
  decide (31 < c.toNat ∧ c.toNat < 127 ∧ c.toNat ≠ 34 ∧ c.toNat ≠ 92)

/-- All characters of the string are `charOk`. -/
def strOk (s : String) : Bool := s.data.all charOk

mutual
/-- Well-formedness of a JSON value for the round-trip theorem: every string
and every key consists of `charOk` characters. -/
def wfJv : Jv → Bool
  | .null => true
  | .num _ => true
  | .str s => strOk s
  | .arr vs => wfList vs
  | .obj kvs => wfMembers kvs
/-- `wfJv` on all elements. -/
def wfList : List Jv → Bool
  | [] => true
  | v :: vs => wfJv v && wfList vs
/-- `wfJv` on all member values, `strOk` on all keys. -/
def wfMembers : List (String × Jv) → Bool
  | [] => true
  | kv :: kvs => (strOk kv.1 && wfJv kv.2) && wfMembers kvs
end

/-- A list of characters a rendered value may be followed by: empty, or not
starting with a digit (so that a rendered numeral is not extended). -/
def restOkB : List Char → Bool
  | [] => true
  | c :: _ => !(isDigitCh c)

/-! ### A base-256 positional encoding of character lists

`encW cs t` reads `cs` as the high digits of a base-256 numeral whose low
part is `t`; with `t = 1` as a leading marker the encoding is injective on
lists of characters below 256. It turns equality of long character lists into
equality of numerals, which the proof checker compares directly. -/

/-- Base-256 value of the characters of `cs` stacked on top of `t`. -/
def encW : List Char → Nat → Nat
  | [], t => t
  | c :: cs, t => encW cs t * 256 + c.toNat

/-- All characters below 256. -/
def charsLt256 : List Char → Bool :=
  fun cs => cs.all fun c => Nat.blt c.toNat 256

/-- Concatenation of a list of strings. -/
def catStrs : List String → String
  | [] => ""
  | s :: ss => s ++ catStrs ss

/-- The `encW`-encoding of the concatenation of a list of strings, computed
chunk by chunk. The match on the recursive result forces it to a numeral
before the next chunk is processed, keeping evaluation shallow. -/
def listEncChunks : List String → Nat
  | [] => 1
  | s :: ss =>
    match listEncChunks ss with
    | 0 => encW s.data 0
    | t + 1 => encW s.data (t + 1)

mutual
/-- The `encW`-encoding of `renderChars v` stacked on top of `t`, computed
directly on the tree. Agrees with `encW (renderChars v) t` (theorem below)
while evaluating shallowly. -/
def renderEnc : Jv → Nat → Nat
  | .null, t => encW ("null".data) t
  | .num n, t => encW (renderNum n) t
  | .str s, t => encW (quoteChar :: (s.data ++ [quoteChar])) t
  | .arr [], t => encW [lbrackChar, rbrackChar] t
  | .arr (v :: vs), t =>
    match renderSuffixEnc vs t with
    | 0 => encW [lbrackChar] (renderEnc v 0)
    | u + 1 => encW [lbrackChar] (renderEnc v (u + 1))
  | .obj [], t => encW [lbraceChar, rbraceChar] t
  | .obj (kv :: kvs), t =>
    match renderMembersSuffixEnc kvs t with
    | 0 => encW [lbraceChar] (memberEnc kv 0)
    | u + 1 => encW [lbraceChar] (memberEnc kv (u + 1))
/-- The encoding of `renderSuffix vs` stacked on top of `t`. -/
def renderSuffixEnc : List Jv → Nat → Nat
  | [], t => encW [rbrackChar] t
  | v :: vs, t =>
    match renderSuffixEnc vs t with
    | 0 => encW [commaChar, spaceChar] (renderEnc v 0)
    | u + 1 => encW [commaChar, spaceChar] (renderEnc v (u + 1))
/-- The encoding of `memberChars kv` stacked on top of `t`. -/
def memberEnc : String × Jv → Nat → Nat
  | (k, v), t =>
    match renderEnc v t with
    | 0 => encW (quoteChar :: (k.data ++ [quoteChar, colonChar, spaceChar])) 0
    | u + 1 => encW (quoteChar :: (k.data ++ [quoteChar, colonChar, spaceChar])) (u + 1)
/-- The encoding of `renderMembersSuffix kvs` stacked on top of `t`. -/
def renderMembersSuffixEnc : List (String × Jv) → Nat → Nat
  | [], t => encW [rbraceChar] t
  | kv :: kvs, t =>
    match renderMembersSuffixEnc kvs t with
    | 0 => encW [commaChar, spaceChar] (memberEnc kv 0)
    | u + 1 => encW [commaChar, spaceChar] (memberEnc kv (u + 1))
end

/-! ### Predicates for the individual claims -/

/-- Shape asserted by the claim that a term entry records both the documents
containing the term and the positions of its occurrences: a list of entries,
each pairing a document index with a list of positions. Stated from the
words of the claim, to be compared with the value shapes actually present. -/
def termValueWithPositions : Jv → Bool
  | .arr entries =>
    entries.all fun e =>
      match e with
      | .arr [.num _, .arr ps] => ps.all isNum
      | _ => false
  | _ => false

/-- Value shape actually used by the terms index: a single document index or
a flat list of document indices, nothing else. -/
def termValueDocsOnly : Jv → Bool
  | .num _ => true
  | .arr l => l.all isNum
  | _ => false

/-- The claim-C1 reading of the terms mapping: every value records documents
and positions. -/
def claimC1holds (p : Jv) : Bool :=
  objValuesAll (subObj p "terms") termValueWithPositions

/-- Value shape asserted for terms and titleterms entries: a bare integer, or
a list of at least two integers that is duplicate-free and strictly
increasing. -/
def scalarOrMultiList : Jv → Bool
  | .num _ => true
  | .arr l =>
    match natsOf l with
    | some ns => Nat.ble 2 ns.length && decide ns.Nodup && strictIncr ns
    | none => false
  | _ => false

/-- The document indices referenced by one terms-style value. -/
def valueDocRefs : Jv → List Nat
  | .num n => [n]
  | .arr l => l.filterMap asNat
  | _ => []

/-- All document indices referenced by the values of an object. -/
def objValuesRefs : Jv → List Nat
  | .obj kvs => kvs.foldr (fun kv acc => valueDocRefs kv.2 ++ acc) []
  | _ => []

/-- The document indices in first position of the entry pairs of one
alltitles value. -/
def entryHeads : Jv → List Nat
  | .arr entries =>
    entries.filterMap fun e =>
      match e with
      | .arr (first :: _) => asNat first
      | _ => none
  | _ => []

/-- All document indices referenced in first position anywhere under an
alltitles-style object. -/
def allTitlesRefs : Jv → List Nat
  | .obj kvs => kvs.foldr (fun kv acc => entryHeads kv.2 ++ acc) []
  | _ => []

/-- Every document index referenced anywhere in the index object: scalars and
list elements under terms and titleterms, and first components of the pairs
under alltitles. -/
def allDocRefs (p : Jv) : List Nat :=
  objValuesRefs (subObj p "terms") ++ objValuesRefs (subObj p "titleterms") ++
    allTitlesRefs (subObj p "alltitles")

/-- The i-th title of the titles list of the payload-shaped object. -/
def titleAt (titles : Jv) (i : Nat) : Jv := arrAt titles i

/-- One alltitles entry as the claim states it: a pair of a document index
and an anchor string, or a pair of a document index and null provided the
title keyed by the entry is the whole title of that document. Stated from
the words of the claim. -/
def anchorPairOk (titles : Jv) (key : String) : Jv → Bool
  | .arr [.num _, .str _] => true
  | .arr [.num d, .null] => jvBeq (titleAt titles d) (.str key)
  | _ => false

/-- The claim-C4 reading of the alltitles mapping, checked over every key. -/
def claimC4holds (p : Jv) : Bool :=
  match subObj p "alltitles" with
  | .obj kvs =>
    kvs.all fun kv =>
      match kv.2 with
      | .arr entries => entries.all (anchorPairOk (subObj p "titles") kv.1)
      | _ => false
  | _ => false

/-- One alltitles entry shape without the null characterisation: a pair of a
document index and either an anchor string or null. -/
def anchorPairShape : Jv → Bool
  | .arr [.num _, .str _] => true
  | .arr [.num _, .null] => true
  | _ => false

/-- Every alltitles value is a list of `anchorPairShape` pairs. -/
def allTitlesShapeOk (p : Jv) : Bool :=
  match subObj p "alltitles" with
  | .obj kvs =>
    kvs.all fun kv =>
      match kv.2 with
      | .arr entries => entries.all anchorPairShape
      | _ => false
  | _ => false

/-- The i-th title appears as an alltitles key whose entry list contains the
pair of document index i and null. -/
def docTitleHasNullAnchor (p : Jv) (i : Nat) : Bool :=
  match titleAt (subObj p "titles") i with
  | .str t =>
    match Jv.get (subObj p "alltitles") t with
    | some (.arr entries) => entries.any fun e => jvBeq e (Jv.arr [Jv.num i, Jv.null])
    | _ => false
  | _ => false

/-- The i-th filename is the i-th docname extended with a documentation
source extension, .md or .rst. -/
def filenameMatches (p : Jv) (i : Nat) : Bool :=
  match strAt (subObj p "docnames") i, strAt (subObj p "filenames") i with
  | some d, some f => decide (f = d ++ ".md") || decide (f = d ++ ".rst")
  | _, _ => false

/-- The six top-level index fields named by the flat-structure claim. -/
def sixKeys : List String :=
  ["terms", "docnames", "filenames", "titles", "titleterms", "alltitles"]

/-- The seven top-level fields named by the lookup claim. -/
def sevenKeys : List String :=
  ["terms", "docnames", "filenames", "titles", "titleterms", "alltitles", "envversion"]

/-- Does the string contain a character with the given code? -/
def hasCharCode (s : String) (n : Nat) : Bool :=
  s.data.any fun c => decide (c.toNat = n)
/-! ### The content of docs/12.6.1/searchindex.js, transliterated -/

/-- The JSON object passed to Search.setIndex in docs/12.6.1/searchindex.js,
transliterated member by member in source order. -/
def payload : Jv :=
  Jv.obj [
    ("alltitles", Jv.obj [("Attribution", Jv.arr [Jv.arr [Jv.num 0, Jv.str "attribution"]]), ("CUDA Python", Jv.arr [Jv.arr [Jv.num 2, Jv.null]]), ("CUDA Python Release notes", Jv.arr [Jv.arr [Jv.num 4, Jv.null]]), ("Code of Conduct", Jv.arr [Jv.arr [Jv.num 0, Jv.null]]), ("Contents:", Jv.arr [Jv.arr [Jv.num 2, Jv.null]]), ("Contributing", Jv.arr [Jv.arr [Jv.num 1, Jv.null]]), ("Enforcement", Jv.arr [Jv.arr [Jv.num 0, Jv.str "enforcement"]]), ("Hightlights", Jv.arr [Jv.arr [Jv.num 4, Jv.str "hightlights"]]), ("Included components", Jv.arr [Jv.arr [Jv.num 4, Jv.str "included-components"]]), ("Our Pledge", Jv.arr [Jv.arr [Jv.num 0, Jv.str "our-pledge"]]), ("Our Responsibilities", Jv.arr [Jv.arr [Jv.num 0, Jv.str "our-responsibilities"]]), ("Our Standards", Jv.arr [Jv.arr [Jv.num 0, Jv.str "our-standards"]]), ("Overview", Jv.arr [Jv.arr [Jv.num 0, Jv.str "overview"]]), ("Release Notes", Jv.arr [Jv.arr [Jv.num 3, Jv.null]]), ("Scope", Jv.arr [Jv.arr [Jv.num 0, Jv.str "scope"]])]),
    ("docnames", Jv.arr [Jv.str "conduct", Jv.str "contribute", Jv.str "index", Jv.str "release", Jv.str "release/12.6.1-notes"]),
    ("envversion", Jv.obj [("sphinx", Jv.num 64), ("sphinx.domains.c", Jv.num 3), ("sphinx.domains.changeset", Jv.num 1), ("sphinx.domains.citation", Jv.num 1), ("sphinx.domains.cpp", Jv.num 9), ("sphinx.domains.index", Jv.num 1), ("sphinx.domains.javascript", Jv.num 3), ("sphinx.domains.math", Jv.num 2), ("sphinx.domains.python", Jv.num 4), ("sphinx.domains.rst", Jv.num 2), ("sphinx.domains.std", Jv.num 2)]),
    ("filenames", Jv.arr [Jv.str "conduct.md", Jv.str "contribute.md", Jv.str "index.rst", Jv.str "release.md", Jv.str "release/12.6.1-notes.md"]),
    ("indexentries", Jv.obj []),
    ("objects", Jv.obj []),
    ("objnames", Jv.obj []),
    ("objtypes", Jv.obj []),
    ("terms", Jv.obj [("", Jv.arr [Jv.num 0, Jv.num 2]), ("1", Jv.arr [Jv.num 0, Jv.num 2, Jv.num 3, Jv.num 4]), ("12", Jv.arr [Jv.num 2, Jv.num 3, Jv.num 4]), ("2024", Jv.num 4), ("4", Jv.num 0), ("6", Jv.arr [Jv.num 2, Jv.num 3, Jv.num 4]), ("7", Jv.num 4), ("75", Jv.num 4), ("90", Jv.num 4), ("At", Jv.num 1), ("Being", Jv.num 0), ("For", Jv.arr [Jv.num 0, Jv.num 2]), ("If", Jv.num 1), ("In", Jv.num 0), ("It", Jv.num 2), ("The", Jv.arr [Jv.num 0, Jv.num 1]), ("about", Jv.num 0), ("abus", Jv.num 0), ("accept", Jv.arr [Jv.num 0, Jv.num 1]), ("access", Jv.num 2), ("account", Jv.num 0), ("act", Jv.num 0), ("action", Jv.num 0), ("adapt", Jv.num 0), ("address", Jv.num 0), ("advanc", Jv.num 0), ("ag", Jv.num 0), ("algorithm", Jv.num 2), ("align", Jv.num 0), ("all", Jv.arr [Jv.num 0, Jv.num 2]), ("an", Jv.arr [Jv.num 0, Jv.num 1, Jv.num 2]), ("ani", Jv.num 0), ("answer", Jv.num 0), ("api", Jv.num 2), ("appear", Jv.num 0), ("appli", Jv.num 0), ("appoint", Jv.num 0), ("appropri", Jv.num 0), ("ar", Jv.num 0), ("attack", Jv.num 0), ("attent", Jv.arr [Jv.num 0, Jv.num 1]), ("attribut", Jv.num 2), ("avail", Jv.arr [Jv.num 0, Jv.num 2]), ("ban", Jv.num 0), ("base", Jv.num 1), ("behavior", Jv.num 0), ("believ", Jv.num 1), ("best", Jv.num 0), ("bind", Jv.arr [Jv.num 2, Jv.num 4]), ("bodi", Jv.num 0), ("both", Jv.num 0), ("bring", Jv.num 2), ("bug", Jv.num 1), ("c", Jv.num 2), ("categori", Jv.num 1), ("chang", Jv.num 1), ("characterist", Jv.num 0), ("circumst", Jv.num 0), ("clarifi", Jv.num 0), ("code", Jv.arr [Jv.num 1, Jv.num 2]), ("com", Jv.num 0), ("comment", Jv.arr [Jv.num 0, Jv.num 1]), ("commit", Jv.num 0), ("common", Jv.num 0), ("commun", Jv.num 0), ("complaint", Jv.num 0), ("compon", Jv.arr [Jv.num 2, Jv.num 3]), ("conduct", Jv.num 2), ("confidenti", Jv.num 0), ("consid", Jv.num 0), ("consist", Jv.num 2), ("construct", Jv.num 0), ("contact", Jv.num 0), ("continu", Jv.num 2), ("contribut", Jv.arr [Jv.num 0, Jv.num 2]), ("contributor", Jv.num 0), ("cooper", Jv.num 2), ("core", Jv.num 2), ("correct", Jv.num 0), ("could", Jv.num 0), ("coven", Jv.num 0), ("creat", Jv.num 0), ("critic", Jv.num 0), ("cub", Jv.num 2), ("cuda", Jv.arr [Jv.num 0, Jv.num 1]), ("current", Jv.num 2), ("deem", Jv.num 0), ("defin", Jv.num 0), ("derogatori", Jv.num 0), ("describ", Jv.num 1), ("detail", Jv.arr [Jv.num 0, Jv.num 2]), ("determin", Jv.num 0), ("differ", Jv.num 0), ("disabl", Jv.num 0), ("do", Jv.arr [Jv.num 0, Jv.num 1]), ("document", Jv.arr [Jv.num 1, Jv.num 2]), ("e", Jv.num 0), ("econom", Jv.num 0), ("edit", Jv.num 0), ("educ", Jv.num 0), ("electron", Jv.num 0), ("empathi", Jv.num 0), ("encount", Jv.num 1), ("enforc", Jv.num 2), ("environ", Jv.num 0), ("ethnic", Jv.num 0), ("evalu", Jv.num 1), ("event", Jv.num 0), ("everyon", Jv.num 0), ("exampl", Jv.num 0), ("exist", Jv.num 2), ("expect", Jv.num 0), ("experi", Jv.num 0), ("explicit", Jv.num 0), ("exposur", Jv.num 2), ("express", Jv.num 0), ("face", Jv.num 0), ("fair", Jv.num 0), ("faith", Jv.num 0), ("fall", Jv.num 1), ("faq", Jv.num 0), ("featur", Jv.num 1), ("file", Jv.num 1), ("fix", Jv.num 1), ("focus", Jv.num 0), ("follow", Jv.num 0), ("foster", Jv.num 0), ("free", Jv.num 0), ("from", Jv.arr [Jv.num 0, Jv.num 2]), ("function", Jv.num 2), ("further", Jv.arr [Jv.num 0, Jv.num 2]), ("gender", Jv.num 0), ("good", Jv.num 0), ("gracefulli", Jv.num 0), ("guid", Jv.num 2), ("harass", Jv.num 0), ("harm", Jv.num 0), ("have", Jv.num 0), ("hightlight", Jv.num 3), ("home", Jv.num 2), ("html", Jv.num 0), ("http", Jv.num 0), ("i", Jv.arr [Jv.num 0, Jv.num 2]), ("ident", Jv.num 0), ("imageri", Jv.num 0), ("implement", Jv.num 1), ("improv", Jv.num 2), ("inappropri", Jv.num 0), ("incid", Jv.num 0), ("includ", Jv.arr [Jv.num 0, Jv.num 3]), ("inclus", Jv.num 0), ("individu", Jv.num 0), ("inform", Jv.num 0), ("instal", Jv.num 2), ("instanc", Jv.num 0), ("insult", Jv.num 0), ("interest", Jv.arr [Jv.num 0, Jv.num 1]), ("intern", Jv.num 4), ("investig", Jv.num 0), ("issu", Jv.arr [Jv.num 0, Jv.num 1, Jv.num 4]), ("its", Jv.num 0), ("languag", Jv.num 0), ("layout", Jv.num 4), ("leadership", Jv.num 0), ("level", Jv.arr [Jv.num 0, Jv.num 2]), ("librari", Jv.num 2), ("low", Jv.num 2), ("mai", Jv.num 0), ("mail", Jv.num 0), ("maintain", Jv.num 0), ("make", Jv.num 0), ("math", Jv.num 2), ("media", Jv.num 0), ("member", Jv.num 0), ("metapackag", Jv.num 4), ("multipl", Jv.num 2), ("nation", Jv.num 0), ("necessari", Jv.num 0), ("need", Jv.num 1), ("new", Jv.num 2), ("note", Jv.num 2), ("notifi", Jv.num 1), ("nvidia", Jv.arr [Jv.num 0, Jv.num 1, Jv.num 2]), ("nvmath", Jv.num 2), ("oblig", Jv.num 0), ("oct", Jv.num 4), ("offens", Jv.num 0), ("offici", Jv.num 0), ("offlin", Jv.num 0), ("onlin", Jv.num 0), ("open", Jv.num 0), ("org", Jv.num 0), ("orient", Jv.num 0), ("other", Jv.arr [Jv.num 0, Jv.num 2]), ("otherwis", Jv.num 0), ("our", Jv.num 2), ("overhaul", Jv.num 2), ("overview", Jv.num 2), ("packag", Jv.num 2), ("parallel", Jv.num 2), ("particip", Jv.num 0), ("perman", Jv.num 0), ("permiss", Jv.num 0), ("person", Jv.num 0), ("physic", Jv.num 0), ("platform", Jv.num 2), ("pleas", Jv.num 2), ("pledg", Jv.num 2), ("polici", Jv.num 0), ("polit", Jv.num 0), ("posit", Jv.num 0), ("post", Jv.num 0), ("prepar", Jv.num 4), ("previous", Jv.num 2), ("prioriti", Jv.num 1), ("privat", Jv.num 0), ("profession", Jv.num 0), ("project", Jv.num 0), ("public", Jv.num 0), ("publish", Jv.num 0), ("python", Jv.arr [Jv.num 0, Jv.num 1]), ("question", Jv.num 0), ("race", Jv.num 0), ("reason", Jv.num 0), ("refactor", Jv.num 4), ("refer", Jv.num 2), ("regard", Jv.num 0), ("regardless", Jv.num 0), ("reject", Jv.num 0), ("releas", Jv.arr [Jv.num 1, Jv.num 2]), ("religion", Jv.num 0), ("remov", Jv.num 0), ("repercuss", Jv.num 0), ("report", Jv.arr [Jv.num 0, Jv.num 1]), ("repres", Jv.num 0), ("represent", Jv.num 0), ("request", Jv.num 1), ("respect", Jv.num 0), ("respons", Jv.num 2), ("result", Jv.num 0), ("review", Jv.num 0), ("right", Jv.num 0), ("runtim", Jv.num 2), ("schedul", Jv.num 1), ("scope", Jv.num 2), ("see", Jv.arr [Jv.num 0, Jv.num 1]), ("separ", Jv.num 0), ("set", Jv.num 0), ("sex", Jv.num 0), ("sexual", Jv.num 0), ("show", Jv.num 0), ("size", Jv.num 0), ("social", Jv.num 0), ("socio", Jv.num 0), ("space", Jv.num 0), ("specif", Jv.num 0), ("standard", Jv.num 2), ("statu", Jv.num 0), ("take", Jv.num 0), ("team", Jv.arr [Jv.num 0, Jv.num 1]), ("temporari", Jv.num 0), ("temporarili", Jv.num 0), ("thank", Jv.num 1), ("thei", Jv.num 0), ("them", Jv.num 1), ("thi", Jv.arr [Jv.num 0, Jv.num 1]), ("threaten", Jv.num 0), ("thrust", Jv.num 2), ("time", Jv.num 1), ("toward", Jv.num 0), ("triag", Jv.num 1), ("troll", Jv.num 0), ("two", Jv.num 1), ("type", Jv.num 1), ("unaccept", Jv.num 0), ("undergo", Jv.num 2), ("unwelcom", Jv.num 0), ("up", Jv.num 2), ("us", Jv.num 0), ("version", Jv.num 0), ("via", Jv.num 0), ("viewpoint", Jv.num 0), ("want", Jv.num 1), ("we", Jv.arr [Jv.num 0, Jv.num 1]), ("welcom", Jv.num 0), ("what", Jv.arr [Jv.num 0, Jv.num 1]), ("when", Jv.num 0), ("which", Jv.num 0), ("who", Jv.num 0), ("wiki", Jv.num 0), ("within", Jv.num 0), ("without", Jv.num 0), ("www", Jv.num 0), ("you", Jv.num 1), ("your", Jv.num 1)]),
    ("titles", Jv.arr [Jv.str "Code of Conduct", Jv.str "Contributing", Jv.str "CUDA Python", Jv.str "Release Notes", Jv.str "CUDA Python Release notes"]),
    ("titleterms", Jv.obj [("attribut", Jv.num 0), ("code", Jv.num 0), ("compon", Jv.num 4), ("conduct", Jv.num 0), ("content", Jv.num 2), ("contribut", Jv.num 1), ("cuda", Jv.arr [Jv.num 2, Jv.num 4]), ("enforc", Jv.num 0), ("hightlight", Jv.num 4), ("includ", Jv.num 4), ("note", Jv.arr [Jv.num 3, Jv.num 4]), ("our", Jv.num 0), ("overview", Jv.num 0), ("pledg", Jv.num 0), ("python", Jv.arr [Jv.num 2, Jv.num 4]), ("releas", Jv.arr [Jv.num 3, Jv.num 4]), ("respons", Jv.num 0), ("scope", Jv.num 0), ("standard", Jv.num 0)])
  ]

/-- The raw text of the argument of the Search.setIndex call, the exact
characters of docs/12.6.1/searchindex.js line 1 between the opening
parenthesis and the final closing parenthesis, split into chunks of 200
characters so every character-level computation stays shallow. Braces are
written with their character-code escapes. -/
def payloadChunks : List String :=
  [
    "\x7b\"alltitles\": \x7b\"Attribution\": [[0, \"attribution\"]], \"CUDA Python\": [[2, null]], \"CUDA Python Release notes\": [[4, null]], \"Code of Conduct\": [[0, null]], \"Contents:\": [[2, null]], \"Contributing\": [[1,",
    " null]], \"Enforcement\": [[0, \"enforcement\"]], \"Hightlights\": [[4, \"hightlights\"]], \"Included components\": [[4, \"included-components\"]], \"Our Pledge\": [[0, \"our-pledge\"]], \"Our Responsibilities\": [[0, ",
    "\"our-responsibilities\"]], \"Our Standards\": [[0, \"our-standards\"]], \"Overview\": [[0, \"overview\"]], \"Release Notes\": [[3, null]], \"Scope\": [[0, \"scope\"]]\x7d, \"docnames\": [\"conduct\", \"contribute\", \"index\",",
    " \"release\", \"release/12.6.1-notes\"], \"envversion\": \x7b\"sphinx\": 64, \"sphinx.domains.c\": 3, \"sphinx.domains.changeset\": 1, \"sphinx.domains.citation\": 1, \"sphinx.domains.cpp\": 9, \"sphinx.domains.index\": 1",
    ", \"sphinx.domains.javascript\": 3, \"sphinx.domains.math\": 2, \"sphinx.domains.python\": 4, \"sphinx.domains.rst\": 2, \"sphinx.domains.std\": 2\x7d, \"filenames\": [\"conduct.md\", \"contribute.md\", \"index.rst\", \"re",
    "lease.md\", \"release/12.6.1-notes.md\"], \"indexentries\": \x7b\x7d, \"objects\": \x7b\x7d, \"objnames\": \x7b\x7d, \"objtypes\": \x7b\x7d, \"terms\": \x7b\"\": [0, 2], \"1\": [0, 2, 3, 4], \"12\": [2, 3, 4], \"2024\": 4, \"4\": 0, \"6\": [2, 3, 4], \"",
    "7\": 4, \"75\": 4, \"90\": 4, \"At\": 1, \"Being\": 0, \"For\": [0, 2], \"If\": 1, \"In\": 0, \"It\": 2, \"The\": [0, 1], \"about\": 0, \"abus\": 0, \"accept\": [0, 1], \"access\": 2, \"account\": 0, \"act\": 0, \"action\": 0, \"adapt",
    "\": 0, \"address\": 0, \"advanc\": 0, \"ag\": 0, \"algorithm\": 2, \"align\": 0, \"all\": [0, 2], \"an\": [0, 1, 2], \"ani\": 0, \"answer\": 0, \"api\": 2, \"appear\": 0, \"appli\": 0, \"appoint\": 0, \"appropri\": 0, \"ar\": 0, \"a",
    "ttack\": 0, \"attent\": [0, 1], \"attribut\": 2, \"avail\": [0, 2], \"ban\": 0, \"base\": 1, \"behavior\": 0, \"believ\": 1, \"best\": 0, \"bind\": [2, 4], \"bodi\": 0, \"both\": 0, \"bring\": 2, \"bug\": 1, \"c\": 2, \"categori\":",
    " 1, \"chang\": 1, \"characterist\": 0, \"circumst\": 0, \"clarifi\": 0, \"code\": [1, 2], \"com\": 0, \"comment\": [0, 1], \"commit\": 0, \"common\": 0, \"commun\": 0, \"complaint\": 0, \"compon\": [2, 3], \"conduct\": 2, \"con",
    "fidenti\": 0, \"consid\": 0, \"consist\": 2, \"construct\": 0, \"contact\": 0, \"continu\": 2, \"contribut\": [0, 2], \"contributor\": 0, \"cooper\": 2, \"core\": 2, \"correct\": 0, \"could\": 0, \"coven\": 0, \"creat\": 0, \"cr",
    "itic\": 0, \"cub\": 2, \"cuda\": [0, 1], \"current\": 2, \"deem\": 0, \"defin\": 0, \"derogatori\": 0, \"describ\": 1, \"detail\": [0, 2], \"determin\": 0, \"differ\": 0, \"disabl\": 0, \"do\": [0, 1], \"document\": [1, 2], \"e\"",
    ": 0, \"econom\": 0, \"edit\": 0, \"educ\": 0, \"electron\": 0, \"empathi\": 0, \"encount\": 1, \"enforc\": 2, \"environ\": 0, \"ethnic\": 0, \"evalu\": 1, \"event\": 0, \"everyon\": 0, \"exampl\": 0, \"exist\": 2, \"expect\": 0, \"",
    "experi\": 0, \"explicit\": 0, \"exposur\": 2, \"express\": 0, \"face\": 0, \"fair\": 0, \"faith\": 0, \"fall\": 1, \"faq\": 0, \"featur\": 1, \"file\": 1, \"fix\": 1, \"focus\": 0, \"follow\": 0, \"foster\": 0, \"free\": 0, \"from\":",
    " [0, 2], \"function\": 2, \"further\": [0, 2], \"gender\": 0, \"good\": 0, \"gracefulli\": 0, \"guid\": 2, \"harass\": 0, \"harm\": 0, \"have\": 0, \"hightlight\": 3, \"home\": 2, \"html\": 0, \"http\": 0, \"i\": [0, 2], \"ident\"",
    ": 0, \"imageri\": 0, \"implement\": 1, \"improv\": 2, \"inappropri\": 0, \"incid\": 0, \"includ\": [0, 3], \"inclus\": 0, \"individu\": 0, \"inform\": 0, \"instal\": 2, \"instanc\": 0, \"insult\": 0, \"interest\": [0, 1], \"int",
    "ern\": 4, \"investig\": 0, \"issu\": [0, 1, 4], \"its\": 0, \"languag\": 0, \"layout\": 4, \"leadership\": 0, \"level\": [0, 2], \"librari\": 2, \"low\": 2, \"mai\": 0, \"mail\": 0, \"maintain\": 0, \"make\": 0, \"math\": 2, \"med",
    "ia\": 0, \"member\": 0, \"metapackag\": 4, \"multipl\": 2, \"nation\": 0, \"necessari\": 0, \"need\": 1, \"new\": 2, \"note\": 2, \"notifi\": 1, \"nvidia\": [0, 1, 2], \"nvmath\": 2, \"oblig\": 0, \"oct\": 4, \"offens\": 0, \"offi",
    "ci\": 0, \"offlin\": 0, \"onlin\": 0, \"open\": 0, \"org\": 0, \"orient\": 0, \"other\": [0, 2], \"otherwis\": 0, \"our\": 2, \"overhaul\": 2, \"overview\": 2, \"packag\": 2, \"parallel\": 2, \"particip\": 0, \"perman\": 0, \"perm",
    "iss\": 0, \"person\": 0, \"physic\": 0, \"platform\": 2, \"pleas\": 2, \"pledg\": 2, \"polici\": 0, \"polit\": 0, \"posit\": 0, \"post\": 0, \"prepar\": 4, \"previous\": 2, \"prioriti\": 1, \"privat\": 0, \"profession\": 0, \"proj",
    "ect\": 0, \"public\": 0, \"publish\": 0, \"python\": [0, 1], \"question\": 0, \"race\": 0, \"reason\": 0, \"refactor\": 4, \"refer\": 2, \"regard\": 0, \"regardless\": 0, \"reject\": 0, \"releas\": [1, 2], \"religion\": 0, \"rem",
    "ov\": 0, \"repercuss\": 0, \"report\": [0, 1], \"repres\": 0, \"represent\": 0, \"request\": 1, \"respect\": 0, \"respons\": 2, \"result\": 0, \"review\": 0, \"right\": 0, \"runtim\": 2, \"schedul\": 1, \"scope\": 2, \"see\": [0,",
    " 1], \"separ\": 0, \"set\": 0, \"sex\": 0, \"sexual\": 0, \"show\": 0, \"size\": 0, \"social\": 0, \"socio\": 0, \"space\": 0, \"specif\": 0, \"standard\": 2, \"statu\": 0, \"take\": 0, \"team\": [0, 1], \"temporari\": 0, \"tempora",
    "rili\": 0, \"thank\": 1, \"thei\": 0, \"them\": 1, \"thi\": [0, 1], \"threaten\": 0, \"thrust\": 2, \"time\": 1, \"toward\": 0, \"triag\": 1, \"troll\": 0, \"two\": 1, \"type\": 1, \"unaccept\": 0, \"undergo\": 2, \"unwelcom\": 0, ",
    "\"up\": 2, \"us\": 0, \"version\": 0, \"via\": 0, \"viewpoint\": 0, \"want\": 1, \"we\": [0, 1], \"welcom\": 0, \"what\": [0, 1], \"when\": 0, \"which\": 0, \"who\": 0, \"wiki\": 0, \"within\": 0, \"without\": 0, \"www\": 0, \"you\": ",
    "1, \"your\": 1\x7d, \"titles\": [\"Code of Conduct\", \"Contributing\", \"CUDA Python\", \"Release Notes\", \"CUDA Python Release notes\"], \"titleterms\": \x7b\"attribut\": 0, \"code\": 0, \"compon\": 4, \"conduct\": 0, \"content\"",
    ": 2, \"contribut\": 1, \"cuda\": [2, 4], \"enforc\": 0, \"hightlight\": 4, \"includ\": 4, \"note\": [3, 4], \"our\": 0, \"overview\": 0, \"pledg\": 0, \"python\": [2, 4], \"releas\": [3, 4], \"respons\": 0, \"scope\": 0, \"stan",
    "dard\": 0\x7d\x7d"
  ]

/-- The raw text of the argument of the Search.setIndex call: the
concatenation of the chunks. -/
def payloadString : String := catStrs payloadChunks

/-- Line 1 of docs/12.6.1/searchindex.js: the Search.setIndex call around
the payload. -/
def searchindexJsLine : String :=
  "Search.setIndex(" ++ payloadString ++ ")"

/-- The release-notes markdown fragment accompanying the search index: the
full text of the cuda.core 12.6.1 release notes document, transliterated
verbatim. -/
def releaseNotesFragment : String :=
  "# `cuda.core` Release notes\n\nReleased on Nov 8, 2024\n\n## Hightlights\n- Initial beta release\n- Supports all platforms that CUDA is supported\n- Supports all CUDA 11.x/12.x drivers\n- Supports all CUDA 11.x/12.x Toolkits\n- Pythonic CUDA runtime and other core functionalities\n\n## Limitations\n\n- All APIs are currently *experimental* and subject to change without deprecation notice.\n  Please kindly share your feedbacks with us so that we can make `cuda.core` better!\n- Source code release only; `pip`/`conda` support is coming in a future release\n- Windows TCC mode is [not yet supported](https://github.com/NVIDIA/cuda-python/issues/206)"
/-! ### Basic facts about strings, whitespace and digits -/

theorem string_mk_data (s : String) : String.mk s.data = s := rfl

theorem string_data_append (a b : String) : (a ++ b).data = a.data ++ b.data := by
  cases a
  cases b
  rfl

theorem string_length_data (s : String) : s.length = s.data.length := by
  cases s
  rfl

theorem skipWs_cons_nonws {c : Char} (cs : List Char) (h : isWs c = false) :
    skipWs (c :: cs) = c :: cs := by
  simp [skipWs, h]

theorem skipWs_cons_ws {c : Char} (cs : List Char) (h : isWs c = true) :
    skipWs (c :: cs) = skipWs cs := by
  simp [skipWs, h]

theorem parseVal_ws {c : Char} (fuel : Nat) (cs : List Char) (h : isWs c = true) :
    parseVal fuel (c :: cs) = parseVal fuel cs := by
  cases fuel with
  | zero => rfl
  | succ f => simp only [parseVal, skipWs_cons_ws cs h]

theorem parseMember_ws {c : Char} (fuel : Nat) (cs : List Char) (h : isWs c = true) :
    parseMember fuel (c :: cs) = parseMember fuel cs := by
  cases fuel with
  | zero => rfl
  | succ f => simp only [parseMember, skipWs_cons_ws cs h]

theorem charOk_facts {c : Char} (h : charOk c = true) :
    c.toNat ≠ 34 ∧ c.toNat ≠ 92 := by
  simp only [charOk, decide_eq_true_eq] at h
  exact ⟨h.2.2.1, h.2.2.2⟩

theorem quoteChar_toNat : quoteChar.toNat = 34 := by decide

theorem readStrChars_ok : ∀ (s rest : List Char), s.all charOk = true →
    readStrChars (s ++ quoteChar :: rest) = some (s, rest)
  | [], rest, _ => by
    simp [readStrChars, quoteChar_toNat]
  | c :: cs, rest, h => by
    simp only [List.all_cons, Bool.and_eq_true] at h
    obtain ⟨h34, h92⟩ := charOk_facts h.1
    simp only [List.cons_append, readStrChars, h34, h92, if_false, List.append_eq,
      readStrChars_ok cs rest h.2]

/-! ### Decimal digits round-trip -/

theorem digit_char_facts : ∀ d : Nat, d < 10 →
    (digitChar d).toNat = 48 + d ∧ isDigitCh (digitChar d) = true := by
  decide

theorem digitsRevF_lt10 : ∀ (fuel n d : Nat), d ∈ digitsRevF fuel n → d < 10
  | 0, _, _, h => by simp [digitsRevF] at h
  | fuel + 1, n, d, h => by
    by_cases hn : n = 0
    · simp [digitsRevF, hn] at h
    · simp only [digitsRevF, hn, if_false, List.mem_cons] at h
      rcases h with h | h
      · subst h
        omega
      · exact digitsRevF_lt10 fuel (n / 10) d h

theorem digitsRevF_foldr : ∀ (fuel n : Nat), n ≤ fuel →
    List.foldr (fun d a => a * 10 + d) 0 (digitsRevF fuel n) = n
  | 0, n, h => by
    interval_cases n
    rfl
  | fuel + 1, n, h => by
    by_cases hn : n = 0
    · simp [digitsRevF, hn]
    · have hdiv : n / 10 ≤ fuel := by omega
      simp only [digitsRevF, hn, if_false, List.foldr_cons,
        digitsRevF_foldr fuel (n / 10) hdiv]
      omega

theorem readDigits_map : ∀ (ds : List Nat) (acc : Nat) (rest : List Char),
    (∀ d ∈ ds, d < 10) → restOkB rest = true →
    readDigits (ds.map digitChar ++ rest) acc =
      (List.foldl (fun a d => a * 10 + d) acc ds, rest)
  | [], acc, rest, _, hrest => by
    cases rest with
    | nil => rfl
    | cons c cs =>
      simp only [restOkB, Bool.not_eq_eq_eq_not, Bool.not_true] at hrest
      simp [readDigits, hrest]
  | d :: ds, acc, rest, hds, hrest => by
    have hd : d < 10 := hds d (List.mem_cons_self d ds)
    obtain ⟨htn, hdg⟩ := digit_char_facts d hd
    simp only [List.map_cons, List.cons_append, readDigits, hdg, if_true, htn,
      List.foldl_cons, List.append_eq]
    have h48 : 48 + d - 48 = d := by omega
    rw [h48, readDigits_map ds (acc * 10 + d) rest
      (fun x hx => hds x (List.mem_cons_of_mem d hx)) hrest]

theorem renderNum_all_digits (n : Nat) : ∀ c ∈ renderNum n, isDigitCh c = true := by
  intro c hc
  by_cases hn : n = 0
  · simp only [renderNum, hn, if_true, List.mem_singleton] at hc
    subst hc
    exact (digit_char_facts 0 (by omega)).2
  · simp only [renderNum, hn, if_false, List.mem_map, List.mem_reverse] at hc
    obtain ⟨d, hd, rfl⟩ := hc
    exact (digit_char_facts d (digitsRevF_lt10 n n d hd)).2

theorem renderNum_ne_nil (n : Nat) : renderNum n ≠ [] := by
  by_cases hn : n = 0
  · simp [renderNum, hn]
  · obtain ⟨m, rfl⟩ : ∃ m, n = m + 1 := ⟨n - 1, by omega⟩
    simp [renderNum, hn, digitsRevF]

theorem readDigits_renderNum (n : Nat) (rest : List Char) (hrest : restOkB rest = true) :
    readDigits (renderNum n ++ rest) 0 = (n, rest) := by
  by_cases hn : n = 0
  · subst hn
    have h := readDigits_map [0] 0 rest (by simp) hrest
    simpa [renderNum] using h
  · have hds : ∀ d ∈ (digitsRevF n n).reverse, d < 10 := by
      intro d hd
      exact digitsRevF_lt10 n n d (List.mem_reverse.mp hd)
    have h := readDigits_map ((digitsRevF n n).reverse) 0 rest hds hrest
    rw [List.foldl_reverse] at h
    have hfold : List.foldr (fun d a => a * 10 + d) 0 (digitsRevF n n) = n :=
      digitsRevF_foldr n n (Nat.le_refl n)
    simp only [renderNum, hn, if_false]
    rw [h]
    simp [hfold]

/-! ### Heads of rendered values -/

theorem commaChar_toNat : commaChar.toNat = 44 := by decide

theorem colonChar_toNat : colonChar.toNat = 58 := by decide

theorem isWs_quoteChar : isWs quoteChar = false := by decide

theorem isWs_commaChar : isWs commaChar = false := by decide

theorem isWs_colonChar : isWs colonChar = false := by decide

theorem isWs_spaceChar : isWs spaceChar = true := by decide

theorem isWs_lbrackChar : isWs lbrackChar = false := by decide

theorem isWs_rbrackChar : isWs rbrackChar = false := by decide

theorem isWs_lbraceChar : isWs lbraceChar = false := by decide

theorem isWs_rbraceChar : isWs rbraceChar = false := by decide

theorem digit_head_facts {c : Char} (h : isDigitCh c = true) :
    isWs c = false ∧ c.toNat ≠ 93 ∧ c.toNat ≠ 125 := by
  simp only [isDigitCh, Bool.and_eq_true, Nat.ble_eq] at h
  refine ⟨?_, by omega, by omega⟩
  simp only [isWs, Bool.or_eq_false_iff, decide_eq_false_iff_not]
  omega

/-- Every rendered value starts with a character that is not whitespace, not
a closing bracket and not a closing brace. -/
theorem renderChars_head (v : Jv) :
    ∃ c cs, renderChars v = c :: cs ∧ isWs c = false ∧ c.toNat ≠ 93 ∧ c.toNat ≠ 125 := by
  cases v with
  | null => exact ⟨_, _, rfl, by decide, by decide, by decide⟩
  | num n =>
    rcases hr : renderNum n with _ | ⟨c, cs⟩
    · exact absurd hr (renderNum_ne_nil n)
    · have hd : isDigitCh c = true := by
        apply renderNum_all_digits n
        rw [hr]
        exact List.mem_cons_self c cs
      obtain ⟨h1, h2, h3⟩ := digit_head_facts hd
      exact ⟨c, cs, by simpa [renderChars] using hr, h1, h2, h3⟩
  | str s => exact ⟨quoteChar, _, rfl, by decide, by decide, by decide⟩
  | arr vs =>
    cases vs with
    | nil => exact ⟨lbrackChar, _, rfl, by decide, by decide, by decide⟩
    | cons v vs => exact ⟨lbrackChar, _, rfl, by decide, by decide, by decide⟩
  | obj kvs =>
    cases kvs with
    | nil => exact ⟨lbraceChar, _, rfl, by decide, by decide, by decide⟩
    | cons kv kvs => exact ⟨lbraceChar, _, rfl, by decide, by decide, by decide⟩

theorem restOkB_renderSuffix (vs : List Jv) (rest : List Char) :
    restOkB (renderSuffix vs ++ rest) = true := by
  cases vs with
  | nil =>
    simp only [renderSuffix, List.singleton_append, restOkB]
    decide
  | cons v vs =>
    simp only [renderSuffix, List.cons_append, restOkB]
    decide

theorem restOkB_renderMembersSuffix (kvs : List (String × Jv)) (rest : List Char) :
    restOkB (renderMembersSuffix kvs ++ rest) = true := by
  cases kvs with
  | nil =>
    simp only [renderMembersSuffix, List.singleton_append, restOkB]
    decide
  | cons kv kvs =>
    simp only [renderMembersSuffix, List.cons_append, restOkB]
    decide

/-! ### The parser reads back every rendered value

By mutual induction over the value: parsing the rendering of a well-formed
value, followed by any continuation that does not extend a numeral, yields
exactly that value and leaves the continuation unconsumed. -/

theorem renderChars_length_pos (v : Jv) : 1 ≤ (renderChars v).length := by
  obtain ⟨c, cs, h, -, -, -⟩ := renderChars_head v
  simp [h]

theorem renderSuffix_length_pos (vs : List Jv) : 1 ≤ (renderSuffix vs).length := by
  cases vs <;> simp [renderSuffix]

theorem renderMembersSuffix_length_pos (kvs : List (String × Jv)) :
    1 ≤ (renderMembersSuffix kvs).length := by
  cases kvs <;> simp [renderMembersSuffix]

theorem skipWs_render_head (v : Jv) (x : List Char) :
    skipWs (renderChars v ++ x) = renderChars v ++ x := by
  obtain ⟨c, cs, h, hws, -, -⟩ := renderChars_head v
  rw [h, List.cons_append, skipWs_cons_nonws _ hws]

theorem rbrackChar_toNat : rbrackChar.toNat = 93 := by decide

theorem rbraceChar_toNat : rbraceChar.toNat = 125 := by decide

theorem lbrackChar_toNat : lbrackChar.toNat = 91 := by decide

theorem lbraceChar_toNat : lbraceChar.toNat = 123 := by decide

mutual

theorem parseVal_render : ∀ (v : Jv) (rest : List Char) (fuel : Nat),
    wfJv v = true → restOkB rest = true → 2 * (renderChars v).length ≤ fuel →
    parseVal fuel (renderChars v ++ rest) = some (v, rest)
  | .null, rest, fuel, _, _, hfuel => by
    have hr : renderChars Jv.null = ['n', 'u', 'l', 'l'] := rfl
    rw [hr] at hfuel ⊢
    match fuel, hfuel with
    | f + 1, _ =>
      simp [parseVal, skipWs, isWs, isDigitCh]
  | .num n, rest, fuel, _, hrest, hfuel => by
    have hr : renderChars (Jv.num n) = renderNum n := rfl
    rw [hr] at hfuel ⊢
    rcases hrn : renderNum n with _ | ⟨c, cs⟩
    · exact absurd hrn (renderNum_ne_nil n)
    · have hd : isDigitCh c = true := by
        apply renderNum_all_digits n
        rw [hrn]
        exact List.mem_cons_self c cs
      have hb : 48 ≤ c.toNat ∧ c.toNat ≤ 57 := by
        simpa [isDigitCh, Nat.ble_eq] using hd
      have hws : isWs c = false := (digit_head_facts hd).1
      rw [hrn] at hfuel
      match fuel, hfuel with
      | f + 1, _ =>
        have hread := readDigits_renderNum n rest hrest
        rw [hrn, List.cons_append] at hread
        have h34 : ¬(c.toNat = 34) := by omega
        have h123 : ¬(c.toNat = 123) := by omega
        have h91 : ¬(c.toNat = 91) := by omega
        simp only [List.cons_append, parseVal, skipWs_cons_nonws _ hws, h34,
          if_false, h123, h91, hd, if_true, hread]
  | .str s, rest, fuel, hwf, _, hfuel => by
    have hr : renderChars (Jv.str s) = quoteChar :: (s.data ++ [quoteChar]) := rfl
    rw [hr] at hfuel ⊢
    match fuel, hfuel with
    | f + 1, _ =>
      rw [List.cons_append, List.append_assoc, List.singleton_append]
      simp only [parseVal, skipWs_cons_nonws _ isWs_quoteChar, quoteChar_toNat,
        if_true]
      have hok : s.data.all charOk = true := hwf
      rw [readStrChars_ok s.data rest hok]
  | .arr [], rest, fuel, _, _, hfuel => by
    have hr : renderChars (Jv.arr []) = [lbrackChar, rbrackChar] := rfl
    rw [hr] at hfuel ⊢
    match fuel, hfuel with
    | f + 2, _ =>
      simp [parseVal, parseArrRest, skipWs, isWs, isDigitCh, lbrackChar,
        rbrackChar]
  | .arr (w :: ws), rest, fuel, hwf, hrest, hfuel => by
    have hr : renderChars (Jv.arr (w :: ws)) =
        lbrackChar :: (renderChars w ++ renderSuffix ws) := rfl
    have hwfeq : wfJv (Jv.arr (w :: ws)) = (wfJv w && wfList ws) := rfl
    rw [hwfeq, Bool.and_eq_true] at hwf
    have hlw := renderChars_length_pos w
    have hls := renderSuffix_length_pos ws
    rw [hr] at hfuel ⊢
    simp only [List.length_cons, List.length_append] at hfuel
    match fuel, hfuel with
    | f + 2, hfuel =>
      obtain ⟨c, cs, hhead, hws2, h93, h125⟩ := renderChars_head w
      have hv := parseVal_render w (renderSuffix ws ++ rest) f hwf.1
        (restOkB_renderSuffix ws rest) (by omega)
      have hm := parseArrMore_render ws [w] rest f hwf.2 hrest (by omega)
      rw [hhead] at hv
      simp only [List.cons_append, List.append_assoc] at hv
      rw [List.cons_append, List.append_assoc]
      simp [parseVal, parseArrRest, skipWs_cons_nonws _ isWs_lbrackChar,
        skipWs_cons_nonws _ hws2, lbrackChar_toNat, hhead, h93, hv, hm]
  | .obj [], rest, fuel, _, _, hfuel => by
    have hr : renderChars (Jv.obj []) = [lbraceChar, rbraceChar] := rfl
    rw [hr] at hfuel ⊢
    match fuel, hfuel with
    | f + 2, _ =>
      simp [parseVal, parseObjRest, skipWs, isWs, isDigitCh, lbraceChar,
        rbraceChar]
  | .obj (⟨k, w⟩ :: kvs), rest, fuel, hwf, hrest, hfuel => by
    have hr : renderChars (Jv.obj (⟨k, w⟩ :: kvs)) =
        lbraceChar :: (memberChars (k, w) ++ renderMembersSuffix kvs) := rfl
    have hwfeq : wfJv (Jv.obj (⟨k, w⟩ :: kvs)) =
        ((strOk k && wfJv w) && wfMembers kvs) := rfl
    rw [hwfeq, Bool.and_eq_true, Bool.and_eq_true] at hwf
    have hmem : memberChars (k, w) =
        quoteChar :: (k.data ++ quoteChar :: colonChar :: spaceChar :: renderChars w) := rfl
    have hlm : 1 ≤ (memberChars (k, w)).length := by
      simp [hmem]
    have hls := renderMembersSuffix_length_pos kvs
    rw [hr] at hfuel ⊢
    simp only [List.length_cons, List.length_append] at hfuel
    match fuel, hfuel with
    | f + 2, hfuel =>
      have hv := parseMember_render k w (renderMembersSuffix kvs ++ rest) f
        hwf.1.1 hwf.1.2 (restOkB_renderMembersSuffix kvs rest) (by omega)
      have hm := parseObjMore_render kvs [(k, w)] rest f hwf.2 hrest (by omega)
      rw [hmem] at hv
      simp only [List.cons_append, List.append_assoc] at hv
      rw [List.cons_append, List.append_assoc]
      simp [parseVal, parseObjRest, skipWs_cons_nonws _ isWs_lbraceChar,
        skipWs_cons_nonws _ isWs_quoteChar, lbraceChar_toNat, quoteChar_toNat,
        hmem, hv, hm]

theorem parseArrMore_render : ∀ (vs acc : List Jv) (rest : List Char) (fuel : Nat),
    wfList vs = true → restOkB rest = true → 2 * (renderSuffix vs).length ≤ fuel →
    parseArrMore fuel acc (renderSuffix vs ++ rest) = some (Jv.arr (acc.reverse ++ vs), rest)
  | [], acc, rest, fuel, _, _, hfuel => by
    have hr : renderSuffix [] = [rbrackChar] := rfl
    rw [hr] at hfuel ⊢
    match fuel, hfuel with
    | f + 1, _ =>
      simp only [List.singleton_append, parseArrMore,
        skipWs_cons_nonws _ isWs_rbrackChar, rbrackChar_toNat, if_true,
        List.append_nil]
  | w :: ws, acc, rest, fuel, hwf, hrest, hfuel => by
    have hr : renderSuffix (w :: ws) =
        commaChar :: spaceChar :: (renderChars w ++ renderSuffix ws) := rfl
    have hwfeq : wfList (w :: ws) = (wfJv w && wfList ws) := rfl
    rw [hwfeq, Bool.and_eq_true] at hwf
    have hlw := renderChars_length_pos w
    have hls := renderSuffix_length_pos ws
    rw [hr] at hfuel ⊢
    simp only [List.length_cons, List.length_append] at hfuel
    match fuel, hfuel with
    | f + 1, hfuel =>
      have hv := parseVal_render w (renderSuffix ws ++ rest) f hwf.1
        (restOkB_renderSuffix ws rest) (by omega)
      have hm := parseArrMore_render ws (w :: acc) rest f hwf.2 hrest (by omega)
      rw [List.cons_append, List.cons_append, List.append_assoc]
      simp [parseArrMore, skipWs_cons_nonws _ isWs_commaChar, commaChar_toNat,
        parseVal_ws f _ isWs_spaceChar, hv, hm]

theorem parseMember_render : ∀ (k : String) (v : Jv) (rest : List Char) (fuel : Nat),
    strOk k = true → wfJv v = true → restOkB rest = true →
    2 * (memberChars (k, v)).length ≤ fuel →
    parseMember fuel (memberChars (k, v) ++ rest) = some ((k, v), rest)
  | k, v, rest, fuel, hk, hwf, hrest, hfuel => by
    have hmem : memberChars (k, v) =
        quoteChar :: (k.data ++ quoteChar :: colonChar :: spaceChar :: renderChars v) := rfl
    have hlv := renderChars_length_pos v
    rw [hmem] at hfuel ⊢
    simp only [List.length_cons, List.length_append] at hfuel
    match fuel, hfuel with
    | f + 1, hfuel =>
      have hv := parseVal_render v rest f hwf hrest (by omega)
      rw [List.cons_append, List.append_assoc]
      simp only [List.cons_append]
      simp only [parseMember, skipWs_cons_nonws _ isWs_quoteChar, quoteChar_toNat,
        if_true]
      rw [readStrChars_ok k.data (colonChar :: spaceChar :: (renderChars v ++ rest)) hk]
      simp only [skipWs_cons_nonws _ isWs_colonChar, colonChar_toNat, if_true,
        parseVal_ws f _ isWs_spaceChar, hv]

theorem parseObjMore_render :
    ∀ (kvs acc : List (String × Jv)) (rest : List Char) (fuel : Nat),
    wfMembers kvs = true → restOkB rest = true →
    2 * (renderMembersSuffix kvs).length ≤ fuel →
    parseObjMore fuel acc (renderMembersSuffix kvs ++ rest) =
      some (Jv.obj (acc.reverse ++ kvs), rest)
  | [], acc, rest, fuel, _, _, hfuel => by
    have hr : renderMembersSuffix [] = [rbraceChar] := rfl
    rw [hr] at hfuel ⊢
    match fuel, hfuel with
    | f + 1, _ =>
      simp only [List.singleton_append, parseObjMore,
        skipWs_cons_nonws _ isWs_rbraceChar, rbraceChar_toNat, if_true,
        List.append_nil]
  | ⟨k, w⟩ :: kvs, acc, rest, fuel, hwf, hrest, hfuel => by
    have hr : renderMembersSuffix (⟨k, w⟩ :: kvs) =
        commaChar :: spaceChar :: (memberChars (k, w) ++ renderMembersSuffix kvs) := rfl
    have hwfeq : wfMembers (⟨k, w⟩ :: kvs) = ((strOk k && wfJv w) && wfMembers kvs) := rfl
    rw [hwfeq, Bool.and_eq_true, Bool.and_eq_true] at hwf
    have hls := renderMembersSuffix_length_pos kvs
    have hmem : memberChars (k, w) =
        quoteChar :: (k.data ++ quoteChar :: colonChar :: spaceChar :: renderChars w) := rfl
    have hlm : 1 ≤ (memberChars (k, w)).length := by
      simp [hmem]
    rw [hr] at hfuel ⊢
    simp only [List.length_cons, List.length_append] at hfuel
    match fuel, hfuel with
    | f + 1, hfuel =>
      have hv := parseMember_render k w (renderMembersSuffix kvs ++ rest) f
        hwf.1.1 hwf.1.2 (restOkB_renderMembersSuffix kvs rest) (by omega)
      have hm := parseObjMore_render kvs ((k, w) :: acc) rest f hwf.2 hrest
        (by omega)
      rw [List.cons_append, List.cons_append, List.append_assoc]
      simp [parseObjMore, skipWs_cons_nonws _ isWs_commaChar, commaChar_toNat,
        parseMember_ws f _ isWs_spaceChar, hv, hm]

end

/-! ### The base-256 encoding identifies the rendering with the raw text -/

theorem char_toNat_inj {a b : Char} (h : a.toNat = b.toNat) : a = b := by
  have hval : a.val = b.val := UInt32.toNat.inj h
  cases a
  cases b
  simp only at hval
  subst hval
  rfl

theorem encW_append : ∀ (a b : List Char) (t : Nat),
    encW (a ++ b) t = encW a (encW b t)
  | [], b, t => rfl
  | c :: cs, b, t => by
    simp only [List.cons_append, encW, List.append_eq, encW_append cs b t]

theorem encW_pos : ∀ (l : List Char) (t : Nat), 1 ≤ t → 1 ≤ encW l t
  | [], t, h => h
  | c :: cs, t, h => by
    have := encW_pos cs t h
    simp only [encW]
    omega

theorem encW_inj : ∀ (a b : List Char), charsLt256 a = true → charsLt256 b = true →
    encW a 1 = encW b 1 → a = b
  | [], [], _, _, _ => rfl
  | [], d :: ds, _, hb, h => by
    simp only [charsLt256, List.all_cons, Bool.and_eq_true] at hb
    have hpos := encW_pos ds 1 (Nat.le_refl 1)
    simp only [encW] at h
    omega
  | c :: cs, [], ha, _, h => by
    simp only [charsLt256, List.all_cons, Bool.and_eq_true] at ha
    have hpos := encW_pos cs 1 (Nat.le_refl 1)
    simp only [encW] at h
    omega
  | c :: cs, d :: ds, ha, hb, h => by
    simp only [charsLt256, List.all_cons, Bool.and_eq_true, Nat.blt_eq] at ha hb
    simp only [encW] at h
    have hc : c.toNat = d.toNat ∧ encW cs 1 = encW ds 1 := by
      constructor <;> omega
    have h1 : c = d := char_toNat_inj hc.1
    have h2 : cs = ds := encW_inj cs ds
      (by simpa [charsLt256] using ha.2) (by simpa [charsLt256] using hb.2) hc.2
    rw [h1, h2]

mutual

theorem renderEnc_spec : ∀ (v : Jv) (t : Nat), renderEnc v t = encW (renderChars v) t
  | .null, t => rfl
  | .num n, t => rfl
  | .str s, t => rfl
  | .arr [], t => rfl
  | .arr (v :: vs), t => by
    have hs := renderSuffixEnc_spec vs t
    have hv0 := renderEnc_spec v
    cases h : renderSuffixEnc vs t with
    | zero =>
      simp only [renderEnc, h]
      rw [← h, hs, hv0]
      have hrc : renderChars (Jv.arr (v :: vs)) =
          lbrackChar :: (renderChars v ++ renderSuffix vs) := rfl
      rw [hrc, ← encW_append]
      simp [encW, encW_append]
    | succ u =>
      simp only [renderEnc, h]
      rw [← h, hs, hv0]
      have hrc : renderChars (Jv.arr (v :: vs)) =
          lbrackChar :: (renderChars v ++ renderSuffix vs) := rfl
      rw [hrc, ← encW_append]
      simp [encW, encW_append]
  | .obj [], t => rfl
  | .obj (kv :: kvs), t => by
    have hs := renderMembersSuffixEnc_spec kvs t
    have hv0 := memberEnc_spec kv
    cases h : renderMembersSuffixEnc kvs t with
    | zero =>
      simp only [renderEnc, h]
      rw [← h, hs, hv0]
      have hrc : renderChars (Jv.obj (kv :: kvs)) =
          lbraceChar :: (memberChars kv ++ renderMembersSuffix kvs) := by
        cases kv
        rfl
      rw [hrc, ← encW_append]
      simp [encW, encW_append]
    | succ u =>
      simp only [renderEnc, h]
      rw [← h, hs, hv0]
      have hrc : renderChars (Jv.obj (kv :: kvs)) =
          lbraceChar :: (memberChars kv ++ renderMembersSuffix kvs) := by
        cases kv
        rfl
      rw [hrc, ← encW_append]
      simp [encW, encW_append]

theorem renderSuffixEnc_spec : ∀ (vs : List Jv) (t : Nat),
    renderSuffixEnc vs t = encW (renderSuffix vs) t
  | [], t => rfl
  | v :: vs, t => by
    have hs := renderSuffixEnc_spec vs t
    have hv0 := renderEnc_spec v
    cases h : renderSuffixEnc vs t with
    | zero =>
      simp only [renderSuffixEnc, h]
      rw [← h, hs, hv0]
      have hrc : renderSuffix (v :: vs) =
          commaChar :: spaceChar :: (renderChars v ++ renderSuffix vs) := rfl
      rw [hrc, ← encW_append]
      simp [encW, encW_append]
    | succ u =>
      simp only [renderSuffixEnc, h]
      rw [← h, hs, hv0]
      have hrc : renderSuffix (v :: vs) =
          commaChar :: spaceChar :: (renderChars v ++ renderSuffix vs) := rfl
      rw [hrc, ← encW_append]
      simp [encW, encW_append]

theorem memberEnc_spec : ∀ (kv : String × Jv) (t : Nat),
    memberEnc kv t = encW (memberChars kv) t
  | (k, v), t => by
    have hv0 := renderEnc_spec v t
    cases h : renderEnc v t with
    | zero =>
      simp only [memberEnc, h]
      rw [← h, hv0]
      have hrc : memberChars (k, v) =
          (quoteChar :: (k.data ++ [quoteChar, colonChar, spaceChar])) ++ renderChars v := by
        simp [memberChars]
      rw [hrc, encW_append]
    | succ u =>
      simp only [memberEnc, h]
      rw [← h, hv0]
      have hrc : memberChars (k, v) =
          (quoteChar :: (k.data ++ [quoteChar, colonChar, spaceChar])) ++ renderChars v := by
        simp [memberChars]
      rw [hrc, encW_append]

theorem renderMembersSuffixEnc_spec : ∀ (kvs : List (String × Jv)) (t : Nat),
    renderMembersSuffixEnc kvs t = encW (renderMembersSuffix kvs) t
  | [], t => rfl
  | kv :: kvs, t => by
    have hs := renderMembersSuffixEnc_spec kvs t
    have hv0 := memberEnc_spec kv
    cases h : renderMembersSuffixEnc kvs t with
    | zero =>
      simp only [renderMembersSuffixEnc, h]
      rw [← h, hs, hv0]
      have hrc : renderMembersSuffix (kv :: kvs) =
          commaChar :: spaceChar :: (memberChars kv ++ renderMembersSuffix kvs) := by
        cases kv
        rfl
      rw [hrc, ← encW_append]
      simp [encW, encW_append]
    | succ u =>
      simp only [renderMembersSuffixEnc, h]
      rw [← h, hs, hv0]
      have hrc : renderMembersSuffix (kv :: kvs) =
          commaChar :: spaceChar :: (memberChars kv ++ renderMembersSuffix kvs) := by
        cases kv
        rfl
      rw [hrc, ← encW_append]
      simp [encW, encW_append]

end

theorem charOk_lt256 {c : Char} (h : charOk c = true) : Nat.blt c.toNat 256 = true := by
  simp only [charOk, decide_eq_true_eq] at h
  simp only [Nat.blt_eq]
  omega

mutual

theorem renderChars_lt256 : ∀ v : Jv, wfJv v = true → charsLt256 (renderChars v) = true
  | .null, _ => by decide
  | .num n, _ => by
    have h := renderNum_all_digits n
    have hr : renderChars (Jv.num n) = renderNum n := rfl
    rw [hr]
    simp only [charsLt256, List.all_eq_true]
    intro c hc
    have hd := h c hc
    simp only [isDigitCh, Bool.and_eq_true, Nat.ble_eq] at hd
    simp only [Nat.blt_eq]
    omega
  | .str s, hwf => by
    have hr : renderChars (Jv.str s) = quoteChar :: (s.data ++ [quoteChar]) := rfl
    have hok : s.data.all charOk = true := hwf
    rw [hr]
    simp only [charsLt256, List.all_cons, List.all_append, Bool.and_eq_true,
      List.all_eq_true] at hok ⊢
    refine ⟨by decide, fun c hc => charOk_lt256 (hok c hc), by decide⟩
  | .arr [], _ => by decide
  | .arr (v :: vs), hwf => by
    have hwfeq : wfJv (Jv.arr (v :: vs)) = (wfJv v && wfList vs) := rfl
    rw [hwfeq, Bool.and_eq_true] at hwf
    have hr : renderChars (Jv.arr (v :: vs)) =
        lbrackChar :: (renderChars v ++ renderSuffix vs) := rfl
    rw [hr]
    have h1 := renderChars_lt256 v hwf.1
    have h2 := renderSuffix_lt256 vs hwf.2
    simp only [charsLt256, List.all_cons, List.all_append, Bool.and_eq_true] at h1 h2 ⊢
    exact ⟨by decide, h1, h2⟩
  | .obj [], _ => by decide
  | .obj (kv :: kvs), hwf => by
    have hwfeq : wfJv (Jv.obj (kv :: kvs)) =
        ((strOk kv.1 && wfJv kv.2) && wfMembers kvs) := by
      cases kv
      rfl
    rw [hwfeq, Bool.and_eq_true, Bool.and_eq_true] at hwf
    have hr : renderChars (Jv.obj (kv :: kvs)) =
        lbraceChar :: (memberChars kv ++ renderMembersSuffix kvs) := by
      cases kv
      rfl
    rw [hr]
    have h1 := memberChars_lt256 kv ⟨hwf.1.1, hwf.1.2⟩
    have h2 := renderMembersSuffix_lt256 kvs hwf.2
    simp only [charsLt256, List.all_cons, List.all_append, Bool.and_eq_true] at h1 h2 ⊢
    exact ⟨by decide, h1, h2⟩

theorem renderSuffix_lt256 : ∀ vs : List Jv, wfList vs = true →
    charsLt256 (renderSuffix vs) = true
  | [], _ => by decide
  | v :: vs, hwf => by
    have hwfeq : wfList (v :: vs) = (wfJv v && wfList vs) := rfl
    rw [hwfeq, Bool.and_eq_true] at hwf
    have hr : renderSuffix (v :: vs) =
        commaChar :: spaceChar :: (renderChars v ++ renderSuffix vs) := rfl
    rw [hr]
    have h1 := renderChars_lt256 v hwf.1
    have h2 := renderSuffix_lt256 vs hwf.2
    simp only [charsLt256, List.all_cons, List.all_append, Bool.and_eq_true] at h1 h2 ⊢
    exact ⟨by decide, by decide, h1, h2⟩

theorem memberChars_lt256 : ∀ kv : String × Jv,
    strOk kv.1 = true ∧ wfJv kv.2 = true → charsLt256 (memberChars kv) = true
  | (k, v), hwf => by
    have hr : memberChars (k, v) =
        quoteChar :: (k.data ++ quoteChar :: colonChar :: spaceChar :: renderChars v) := rfl
    rw [hr]
    have hok : k.data.all charOk = true := hwf.1
    have h1 := renderChars_lt256 v hwf.2
    simp only [charsLt256, List.all_cons, List.all_append, Bool.and_eq_true,
      List.all_eq_true] at hok h1 ⊢
    exact ⟨by decide, fun c hc => charOk_lt256 (hok c hc), by decide, by decide,
      by decide, h1⟩

theorem renderMembersSuffix_lt256 : ∀ kvs : List (String × Jv), wfMembers kvs = true →
    charsLt256 (renderMembersSuffix kvs) = true
  | [], _ => by decide
  | kv :: kvs, hwf => by
    have hwfeq : wfMembers (kv :: kvs) = ((strOk kv.1 && wfJv kv.2) && wfMembers kvs) := by
      cases kv
      rfl
    rw [hwfeq, Bool.and_eq_true, Bool.and_eq_true] at hwf
    have hr : renderMembersSuffix (kv :: kvs) =
        commaChar :: spaceChar :: (memberChars kv ++ renderMembersSuffix kvs) := by
      cases kv
      rfl
    rw [hr]
    have h1 := memberChars_lt256 kv ⟨hwf.1.1, hwf.1.2⟩
    have h2 := renderMembersSuffix_lt256 kvs hwf.2
    simp only [charsLt256, List.all_cons, List.all_append, Bool.and_eq_true] at h1 h2 ⊢
    exact ⟨by decide, by decide, h1, h2⟩

end

theorem catStrs_data_enc : ∀ ss : List String,
    listEncChunks ss = encW (catStrs ss).data 1
  | [] => rfl
  | s :: ss => by
    have ih := catStrs_data_enc ss
    have hcat : catStrs (s :: ss) = s ++ catStrs ss := rfl
    cases h : listEncChunks ss with
    | zero =>
      simp only [listEncChunks, h]
      rw [← h, ih, ← encW_append, ← string_data_append, hcat]
    | succ u =>
      simp only [listEncChunks, h]
      rw [← h, ih, ← encW_append, ← string_data_append, hcat]

theorem catStrs_lt256 : ∀ ss : List String,
    (ss.all fun s => charsLt256 s.data) = true → charsLt256 (catStrs ss).data = true
  | [], _ => by decide
  | s :: ss, h => by
    simp only [List.all_cons, Bool.and_eq_true] at h
    have ih := catStrs_lt256 ss h.2
    have hcat : catStrs (s :: ss) = s ++ catStrs ss := rfl
    rw [hcat, string_data_append]
    simp only [charsLt256, List.all_append, Bool.and_eq_true]
    exact ⟨h.1, ih⟩

set_option maxRecDepth 8000 in
/-- The payload object is well formed: every string and key of the search
index consists of printable ASCII characters, with no double quote and no
backslash inside a string. Checked by evaluation. -/
theorem payload_wf : wfJv payload = true := by rfl

set_option maxRecDepth 8000 in
theorem payload_chunks_lt256 : (payloadChunks.all fun s => charsLt256 s.data) = true := by
  rfl

set_option maxRecDepth 8000 in
set_option maxHeartbeats 1600000 in
/-- The rendering of the embedded payload object is, character for character,
the raw text of the argument of the Search.setIndex call. Proved by comparing
the base-256 encodings of the two character lists, which the checker computes
as numerals, and concluding by injectivity of the encoding. -/
theorem renderChars_payload : renderChars payload = payloadString.data := by
  apply encW_inj
  · exact renderChars_lt256 payload payload_wf
  · have h : payloadString = catStrs payloadChunks := rfl
    rw [h]
    exact catStrs_lt256 payloadChunks payload_chunks_lt256
  · have h1 : encW (renderChars payload) 1 = renderEnc payload 1 :=
      (renderEnc_spec payload 1).symm
    have h2 : renderEnc payload 1 = listEncChunks payloadChunks := by rfl
    have h3 : listEncChunks payloadChunks = encW (catStrs payloadChunks).data 1 :=
      catStrs_data_enc payloadChunks
    have hps : payloadString = catStrs payloadChunks := rfl
    rw [h1, h2, h3, hps]

/-! ### Substring and character-membership facts for the release notes -/

theorem leadsWith_mem : ∀ (p cs : List Char), leadsWithChars p cs = true →
    ∀ x ∈ p, x ∈ cs
  | [], _, _, x, hx => by simp at hx
  | p :: ps, [], h, x, hx => by simp [leadsWithChars] at h
  | p :: ps, c :: cs, h, x, hx => by
    simp only [leadsWithChars, Bool.and_eq_true, decide_eq_true_eq] at h
    rcases List.mem_cons.mp hx with hx | hx
    · subst hx
      rw [h.1]
      exact List.mem_cons_self c cs
    · exact List.mem_cons_of_mem c (leadsWith_mem ps cs h.2 x hx)

theorem containsChars_mem : ∀ (pat cs : List Char), containsChars pat cs = true →
    ∀ x ∈ pat, x ∈ cs
  | pat, [], h, x, hx => by
    cases pat with
    | nil => simp at hx
    | cons p ps => simp [containsChars, leadsWithChars] at h
  | pat, c :: cs, h, x, hx => by
    simp only [containsChars, Bool.or_eq_true] at h
    rcases h with h | h
    · exact leadsWith_mem pat (c :: cs) h x hx
    · exact List.mem_cons_of_mem c (containsChars_mem pat cs h x hx)

theorem hasCharCode_append (a b : String) (n : Nat) :
    hasCharCode (a ++ b) n = (hasCharCode a n || hasCharCode b n) := by
  simp [hasCharCode, string_data_append]

theorem catStrs_hasCharCode : ∀ (ss : List String) (n : Nat),
    hasCharCode (catStrs ss) n = ss.any fun s => hasCharCode s n
  | [], n => rfl
  | s :: ss, n => by
    have hcat : catStrs (s :: ss) = s ++ catStrs ss := rfl
    rw [hcat, hasCharCode_append, catStrs_hasCharCode ss n]
    rfl

set_option maxRecDepth 8000 in
theorem payload_no_hash : hasCharCode payloadString 35 = false := by
  have h : payloadString = catStrs payloadChunks := rfl
  rw [h, catStrs_hasCharCode]
  rfl

theorem searchindexJsLine_no_hash : hasCharCode searchindexJsLine 35 = false := by
  have h : searchindexJsLine = "Search.setIndex(" ++ payloadString ++ ")" := rfl
  rw [h, hasCharCode_append, hasCharCode_append, payload_no_hash]
  rfl

theorem mem_of_strContains {s pat : String} {c : Char}
    (hc : c ∈ pat.data) (h : strContains s pat = true) : c ∈ s.data :=
  containsChars_mem pat.data s.data h c hc

theorem hasCharCode_of_mem {s : String} {c : Char} (hc : c ∈ s.data) :
    hasCharCode s c.toNat = true := by
  simp only [hasCharCode, List.any_eq_true, decide_eq_true_eq]
  exact ⟨c, hc, rfl⟩

theorem fragment_head_hash : (Char.ofNat 35) ∈ releaseNotesFragment.data := by
  have h : releaseNotesFragment.data.head? = some (Char.ofNat 35) := by rfl
  cases hd : releaseNotesFragment.data with
  | nil => rw [hd] at h; simp at h
  | cons c t =>
    rw [hd] at h
    simp only [List.head?_cons, Option.some.injEq] at h
    rw [← h]
    exact List.mem_cons_self c t

theorem strContains_line_fragment_false :
    strContains searchindexJsLine releaseNotesFragment = false := by
  cases h : strContains searchindexJsLine releaseNotesFragment with
  | false => rfl
  | true =>
    have hmem := mem_of_strContains fragment_head_hash h
    have := hasCharCode_of_mem hmem
    have hno := searchindexJsLine_no_hash
    have hn : (Char.ofNat 35).toNat = 35 := by decide
    rw [hn] at this
    rw [this] at hno
    exact absurd hno (by simp)

theorem strContains_payload_fragment_false :
    strContains payloadString releaseNotesFragment = false := by
  cases h : strContains payloadString releaseNotesFragment with
  | false => rfl
  | true =>
    have hmem := mem_of_strContains fragment_head_hash h
    have := hasCharCode_of_mem hmem
    have hno := payload_no_hash
    have hn : (Char.ofNat 35).toNat = 35 := by decide
    rw [hn] at this
    rw [this] at hno
    exact absurd hno (by simp)

/-! ### The claims -/

set_option maxRecDepth 8000 in
/-- C1, counterexample: the terms mapping does not record occurrence
positions. The claim says every terms value records both the documents
containing the term and the positions of its occurrences; but the value of
the key "about" is the bare document index 0, which has no
documents-with-positions shape, and the claimed property fails on the payload
as a whole. -/
theorem claim_C1_counterexample :
    Jv.get (subObj payload "terms") "about" = some (Jv.num 0) ∧
    termValueWithPositions (Jv.num 0) = false ∧
    claimC1holds payload = false :=
  ⟨rfl, rfl, rfl⟩

set_option maxRecDepth 8000 in
/-- C1, amended: every value of the terms mapping records only which
documents contain the term, as a bare document index or a flat list of
document indices; no occurrence positions are recorded. -/
theorem claim_C1_amended :
    objValuesAll (subObj payload "terms") termValueDocsOnly = true := by
  rfl

set_option maxRecDepth 8000 in
/-- C2: every value of the terms and titleterms mappings is either a single
bare integer or a list of two or more integers, and every such list is
duplicate-free and strictly increasing. -/
theorem claim_C2 :
    objValuesAll (subObj payload "terms") scalarOrMultiList = true ∧
    objValuesAll (subObj payload "titleterms") scalarOrMultiList = true :=
  ⟨rfl, rfl⟩

set_option maxRecDepth 8000 in
/-- C3: every document index occurring anywhere in the index object, as a
scalar or list element under terms or titleterms or as the first component
of an alltitles pair, is strictly below the length of the docnames list,
which is 5. -/
theorem claim_C3 :
    ((allDocRefs payload).all fun n =>
      Nat.blt n (arrLength (subObj payload "docnames"))) = true ∧
    arrLength (subObj payload "docnames") = 5 :=
  ⟨rfl, rfl⟩

set_option maxRecDepth 8000 in
/-- C4, counterexample: the claim says an alltitles anchor is null only when
the keying title is the title of the whole document; but the key "Contents:"
maps to the single pair of document index 2 and null, while the title of
document 2 is "CUDA Python", so the claimed property fails on the payload. -/
theorem claim_C4_counterexample :
    Jv.get (subObj payload "alltitles") "Contents:" =
      some (Jv.arr [Jv.arr [Jv.num 2, Jv.null]]) ∧
    titleAt (subObj payload "titles") 2 = Jv.str "CUDA Python" ∧
    ("Contents:" : String) ≠ "CUDA Python" ∧
    claimC4holds payload = false :=
  ⟨rfl, rfl, by decide, rfl⟩

set_option maxRecDepth 8000 in
/-- C4, amended: every alltitles value is a list of pairs whose first
component is a document index and whose second component is an anchor
identifier string or null; every whole-document title appears with the pair
of its own document index and null, but a null anchor also occurs under a
key (a toctree caption) that is not the title of its document. -/
theorem claim_C4_amended :
    allTitlesShapeOk payload = true ∧
    ((List.range 5).all fun i => docTitleHasNullAnchor payload i) = true :=
  ⟨rfl, rfl⟩

set_option maxRecDepth 8000 in
/-- C5: the serialized object is a flat object containing the keys terms,
docnames, filenames, titles, titleterms and alltitles directly at top level,
and none of these six indices is nested anywhere inside the value of
another. -/
theorem claim_C5 :
    isObj payload = true ∧
    (sixKeys.all fun k => (Jv.get payload k).isSome) = true ∧
    (sixKeys.all fun k => sixKeys.all fun j =>
      !containsKeyDeep j (subObj payload k)) = true :=
  ⟨rfl, rfl, rfl⟩

set_option maxRecDepth 8000 in
/-- C6: docnames, filenames and titles all have length 5 and correspond
positionally: each filename is the docname extended with .md or .rst, and
each title appears in alltitles keyed to that same document with a null
anchor, identifying it as the title of that document. -/
theorem claim_C6 :
    arrLength (subObj payload "docnames") = 5 ∧
    arrLength (subObj payload "filenames") = 5 ∧
    arrLength (subObj payload "titles") = 5 ∧
    ((List.range 5).all fun i => filenameMatches payload i) = true ∧
    ((List.range 5).all fun i => docTitleHasNullAnchor payload i) = true :=
  ⟨rfl, rfl, rfl, rfl, rfl⟩

set_option maxRecDepth 8000 in
/-- C7: the envversion field maps documentation-toolchain domain names,
including the key sphinx, to exact integer version numbers. -/
theorem claim_C7 :
    Jv.get (subObj payload "envversion") "sphinx" = some (Jv.num 64) ∧
    objValuesAll (subObj payload "envversion") isNum = true :=
  ⟨rfl, rfl⟩

set_option maxRecDepth 8000 in
/-- C8: parsing the argument of the Search.setIndex call as a JSON value
succeeds for the entire payload, and the value obtained is exactly the
embedded payload object. The parser accepts a sublanguage of JSON, so its
success implies the text is valid JSON. -/
theorem claim_C8 : parseJson payloadString = some payload := by
  have hdata : payloadString.data = renderChars payload := renderChars_payload.symm
  have hlen : 2 * (renderChars payload).length ≤ 2 * payloadString.length + 16 := by
    rw [renderChars_payload, string_length_data]
    omega
  have h := parseVal_render payload [] (2 * payloadString.length + 16)
    payload_wf rfl hlen
  rw [List.append_nil] at h
  rw [← hdata] at h
  simp only [parseJson, h]
  rfl

set_option maxRecDepth 8000 in
/-- C9: the release-notes part of the content is a static markdown fragment
of plain prose. It is not contained anywhere in the Search.setIndex line or
in the serialized index object, it is not itself parseable as a serialized
value, and it is a changelog text: it starts with a markdown heading naming
the cuda.core release notes and contains the release date line, the
highlights section heading (spelled Hightlights in the source) and the
limitations section heading. -/
theorem claim_C9 :
    strContains searchindexJsLine releaseNotesFragment = false ∧
    strContains payloadString releaseNotesFragment = false ∧
    parseJson releaseNotesFragment = none ∧
    leadsWithChars ("# `cuda.core` Release notes").data releaseNotesFragment.data = true ∧
    strContains releaseNotesFragment "Released on Nov 8, 2024" = true ∧
    strContains releaseNotesFragment "## Hightlights" = true ∧
    strContains releaseNotesFragment "## Limitations" = true :=
  ⟨strContains_line_fragment_false, strContains_payload_fragment_false,
    rfl, rfl, rfl, rfl, rfl⟩

set_option maxRecDepth 8000 in
/-- C10: every lookup of a top-level field named by the consumption contract,
terms, docnames, filenames, titles, titleterms, alltitles and envversion,
succeeds on the index object. -/
theorem claim_C10 :
    (sevenKeys.all fun k => (Jv.get payload k).isSome) = true := by
  rfl
